import Mathlib

/-!
Shallow embedding of the market-data aggregation core of the repository:
the multi-exchange spot-price aggregator (`okx_monitor.py`,
`MultiExchangeMonitor`), the rate limiter (`api_utils.py`,
`APIRateLimiter`), the retrying request loop (`okx_monitor.py`,
`OKXOptionMonitor._request`), the windowed change metrics
(`market_monitor.py`, `option_monitor/core/option_database.py`) and the
z-score anomaly detector (`option_monitor/core/option_analyzer.py`).

Python floats are idealised as rationals (ℚ).  Comparisons that the
source performs against a standard deviation (a square root) are embedded
in their squared form, which is equivalent for the non-negative
quantities involved: `|x - µ| ≤ 2·σ  ↔  (x - µ)² ≤ 4·σ²` and, for a
threshold `t`, `|z| > t  ↔  t < 0 ∨ z² > t²` where `z² = (x - µ)²/var`.
-/

/-- Arithmetic mean of a list, as in `statistics.mean` / `pandas.mean`
(0 on the empty list, which the sources never hit on that path). -/
def listMean (l : List ℚ) : ℚ := l.sum / l.length

/-- Sample variance (denominator `n - 1`), the square of
`statistics.stdev` / `pandas.std(ddof=1)`.  For fewer than two points the
sources either never call it or obtain `NaN` which fails every `> 0`
comparison; both are embedded as 0. -/
def sampleVar (l : List ℚ) : ℚ :=
  if l.length < 2 then 0
  else ((l.map fun x => (x - listMean l) ^ 2).sum) / ((l.length : ℚ) - 1)

/-- `MultiExchangeMonitor.get_spot_price`, collection phase: one entry
per configured exchange, `(fetched last price | failure, weight)`.  A
tick is kept when the fetch succeeded and `ticker['last']` is truthy
(non-zero). -/
def collectTicks : List (Option ℚ × ℚ) → List (ℚ × ℚ)
  | [] => []
  | (some p, w) :: rest =>
      if p ≠ 0 then (p, w) :: collectTicks rest else collectTicks rest
  | (none, _) :: rest => collectTicks rest

/-- The 2-standard-deviation keep test of `get_spot_price`:
`abs(price - mean_price) <= 2 * std_dev`, embedded in squared form. -/
def keepTick (m v p : ℚ) : Bool := decide ((p - m) ^ 2 ≤ 4 * v)

/-- The ≥ 4-source outlier-rejection pass of `get_spot_price`: keep the
pairs passing the 2-stddev test against the mean/stddev of all prices;
if that would keep nothing, keep everything. -/
def rejectOutliers (pw : List (ℚ × ℚ)) : List (ℚ × ℚ) :=
  let prices := pw.map Prod.fst
  let m := listMean prices
  let v := sampleVar prices
  let filtered := pw.filter fun x => keepTick m v x.1
  if filtered.isEmpty then pw else filtered

/-- `MultiExchangeMonitor.get_spot_price`, consensus phase on the
collected `(price, weight)` pairs: 0.0 when empty, the single price when
one source, otherwise the weighted average of the (for ≥ 4 sources,
outlier-filtered) pairs. -/
def consensusPrice (pw : List (ℚ × ℚ)) : ℚ :=
  if pw.length = 0 then 0
  else if pw.length = 1 then (pw.headD (0, 0)).1
  else
    let kept := if 4 ≤ pw.length then rejectOutliers pw else pw
    ((kept.map fun x => x.1 * x.2).sum) / ((kept.map Prod.snd).sum)

/-- `MultiExchangeMonitor.get_spot_price` end to end: collect the
per-exchange outcomes, then aggregate. -/
def getSpotPrice (results : List (Option ℚ × ℚ)) : ℚ :=
  consensusPrice (collectTicks results)

/-- When every per-exchange fetch fails, nothing is collected. -/
lemma collectTicks_of_allFail (results : List (Option ℚ × ℚ))
    (h : ∀ r ∈ results, r.1 = none) : collectTicks results = [] := by
  induction results with
  | nil => rfl
  | cons r rest ih =>
    obtain ⟨o, w⟩ := r
    have ho : o = none := h (o, w) (List.mem_cons_self _ _)
    subst ho
    exact ih fun x hx => h x (List.mem_cons_of_mem _ hx)

/-- C1, theorem (amended): in every execution of
`MultiExchangeMonitor.get_spot_price` in which every per-exchange fetch
fails, the returned value is the sentinel `0.0` — a plain float, not a
distinct failure type. -/
theorem spotPrice_allFail_eq_zero (results : List (Option ℚ × ℚ))
    (h : ∀ r ∈ results, r.1 = none) : getSpotPrice results = 0 := by
  rw [getSpotPrice, collectTicks_of_allFail results h, consensusPrice]
  norm_num

/-- C1, witness for `spotPrice_allFail_eq_zero` at a concrete two-exchange
run in which both fetches fail. -/
theorem spotPrice_allFail_eq_zero_witness :
    getSpotPrice [(none, 1), (none, 1)] = 0 :=
  spotPrice_allFail_eq_zero [(none, 1), (none, 1)] (by decide)

/-- C1, counterexample: with every fetch failing the aggregator returns
the numeric price `0.0` rather than a failure signal, and the very same
value `0.0` is also produced by an execution in which every fetch
succeeds (prices `1` and `-1`, weights `1`), so the all-fail result is
not distinguishable from a genuine weighted-average price. -/
theorem spotPrice_allFail_counterexample :
    getSpotPrice [(none, 1), (none, 1)] = 0 ∧
      getSpotPrice [(some 1, 1), (some (-1), 1)] = 0 := by
  constructor
  · norm_num [getSpotPrice, consensusPrice, collectTicks]
  · have hc : collectTicks [(some 1, 1), (some (-1), 1)] = [(1, 1), (-1, 1)] := by
      norm_num [collectTicks]
    rw [getSpotPrice, hc, consensusPrice]
    norm_num

/-- C2, theorem (amended): for 3 successful sources with prices
`101.0, 100.0, 99.5` and weights `1.0, 1.0, 0.8` (fewer than 4 sources,
so no outlier rejection), the consensus is the weighted average
`(101·1 + 100·1 + 99.5·0.8) / 2.8 = 1403/14 ≈ 100.21` (not `100.14`). -/
theorem spotPrice_three_sources_weighted_average :
    getSpotPrice [(some 101, 1), (some 100, 1), (some (199/2), 4/5)] =
        (101 * 1 + 100 * 1 + (199/2) * (4/5)) / (1 + 1 + 4/5) ∧
      |getSpotPrice [(some 101, 1), (some 100, 1), (some (199/2), 4/5)] -
        10021/100| ≤ 1/200 := by
  have hc : collectTicks [(some 101, 1), (some 100, 1), (some (199/2), 4/5)] =
      [(101, 1), (100, 1), (199/2, 4/5)] := by
    norm_num [collectTicks]
  have hval : getSpotPrice [(some 101, 1), (some 100, 1), (some (199/2), 4/5)] =
      1403/14 := by
    rw [getSpotPrice, hc, consensusPrice]
    norm_num
  rw [hval]
  norm_num [abs_le]

/-- C2, counterexample: the claimed approximate value `100.14` is wrong —
the weighted average at that input is `1403/14 ≈ 100.2143`, more than
`0.005` (two-decimal rounding tolerance) away from `100.14`. -/
theorem spotPrice_three_sources_counterexample :
    getSpotPrice [(some 101, 1), (some 100, 1), (some (199/2), 4/5)] = 1403/14 ∧
      ¬ |(1403/14 : ℚ) - 10014/100| ≤ 1/200 := by
  have hc : collectTicks [(some 101, 1), (some 100, 1), (some (199/2), 4/5)] =
      [(101, 1), (100, 1), (199/2, 4/5)] := by
    norm_num [collectTicks]
  constructor
  · rw [getSpotPrice, hc, consensusPrice]
    norm_num
  · norm_num [abs_le]

/-- C3, theorem (amended): for the 5 sources `[100, 101, 99, 102, 1000]`
with all weights `1.0`, the 2-sample-standard-deviation outlier rejection
of `get_spot_price` keeps the value `1000` (its squared deviation
`(1000 - 280.4)² = 517824.16` does not exceed `4·var = 647285.2`), so the
consensus is the plain mean `280.4` of all five values — skewed toward
`1000`. -/
theorem spotPrice_outlier_not_rejected :
    keepTick (1402/5) (1618213/10) 1000 = true ∧
      rejectOutliers [(100, 1), (101, 1), (99, 1), (102, 1), (1000, 1)] =
        [(100, 1), (101, 1), (99, 1), (102, 1), (1000, 1)] ∧
      getSpotPrice [(some 100, 1), (some 101, 1), (some 99, 1), (some 102, 1),
        (some 1000, 1)] = 1402/5 := by
  have hm : listMean ([(100, 1), (101, 1), (99, 1), (102, 1),
      ((1000 : ℚ), (1 : ℚ))].map Prod.fst) = 1402/5 := by
    norm_num [listMean]
  have hv : sampleVar ([(100, 1), (101, 1), (99, 1), (102, 1),
      ((1000 : ℚ), (1 : ℚ))].map Prod.fst) = 1618213/10 := by
    norm_num [sampleVar, listMean]
  have hr : rejectOutliers [(100, 1), (101, 1), (99, 1), (102, 1), (1000, 1)] =
      [(100, 1), (101, 1), (99, 1), (102, 1), (1000, 1)] := by
    rw [rejectOutliers]
    simp only [hm, hv]
    norm_num [keepTick, List.filter]
  refine ⟨by norm_num [keepTick], hr, ?_⟩
  have hc : collectTicks [(some 100, 1), (some 101, 1), (some 99, 1), (some 102, 1),
      (some 1000, 1)] = [(100, 1), (101, 1), (99, 1), (102, 1), (1000, 1)] := by
    norm_num [collectTicks]
  rw [getSpotPrice, hc, consensusPrice]
  norm_num [hr]

/-- C3, counterexample: the consensus for prices
`[100, 101, 99, 102, 1000]` (weights all `1.0`) is `280.4`, not the
claimed `100.5` (mean of the four non-outliers): the value `1000` is not
excluded by the 2-standard-deviation step. -/
theorem spotPrice_outlier_counterexample :
    getSpotPrice [(some 100, 1), (some 101, 1), (some 99, 1), (some 102, 1),
        (some 1000, 1)] = 1402/5 ∧ (1402/5 : ℚ) ≠ 201/2 := by
  have hm : listMean ([(100, 1), (101, 1), (99, 1), (102, 1),
      ((1000 : ℚ), (1 : ℚ))].map Prod.fst) = 1402/5 := by
    norm_num [listMean]
  have hv : sampleVar ([(100, 1), (101, 1), (99, 1), (102, 1),
      ((1000 : ℚ), (1 : ℚ))].map Prod.fst) = 1618213/10 := by
    norm_num [sampleVar, listMean]
  have hr : rejectOutliers [(100, 1), (101, 1), (99, 1), (102, 1), (1000, 1)] =
      [(100, 1), (101, 1), (99, 1), (102, 1), (1000, 1)] := by
    rw [rejectOutliers]
    simp only [hm, hv]
    norm_num [keepTick, List.filter]
  have hc : collectTicks [(some 100, 1), (some 101, 1), (some 99, 1), (some 102, 1),
      (some 1000, 1)] = [(100, 1), (101, 1), (99, 1), (102, 1), (1000, 1)] := by
    norm_num [collectTicks]
  constructor
  · rw [getSpotPrice, hc, consensusPrice]
    norm_num [hr]
  · norm_num

/-- `APIRateLimiter.wait_if_needed` (api_utils.py): given the recorded
last call time for the key (`none` when the key is new), the wall-clock
time `now` at entry, the sampled jitter `j = uniform(0, jitter)` and the
non-negative clock advance `e` between the sleep's end and the second
`time.time()` read, the newly recorded call time. -/
def waitStep (minInterval : ℚ) (last : Option ℚ) (now j e : ℚ) : ℚ :=
  match last with
  | none => now + e
  | some t =>
      if now - t < minInterval then now + (minInterval - (now - t) + j) + e
      else now + e

/-- The sequence of call times recorded by successive
`wait_if_needed` invocations for one key, one `(now, j, e)` triple per
invocation. -/
def waitTrace (minInterval : ℚ) : Option ℚ → List (ℚ × ℚ × ℚ) → List ℚ
  | _, [] => []
  | last, (now, j, e) :: rest =>
      let t := waitStep minInterval last now j e
      t :: waitTrace minInterval (some t) rest

/-- `MultiExchangeMonitor._check_rate_limit` (okx_monitor.py): the same
gate without jitter — sleep exactly the missing part of
`min_request_interval`, then record a fresh `time.time()` read. -/
def checkRateLimitStep (minInterval : ℚ) (last : Option ℚ) (now e : ℚ) : ℚ :=
  match last with
  | none => now + e
  | some t =>
      if now - t < minInterval then now + (minInterval - (now - t)) + e
      else now + e

/-- Call times recorded by successive `_check_rate_limit` invocations
for one exchange id. -/
def checkRateLimitTrace (minInterval : ℚ) : Option ℚ → List (ℚ × ℚ) → List ℚ
  | _, [] => []
  | last, (now, e) :: rest =>
      let t := checkRateLimitStep minInterval last now e
      t :: checkRateLimitTrace minInterval (some t) rest

lemma waitStep_spacing (minInterval t now j e : ℚ) (hj : 0 ≤ j) (he : 0 ≤ e) :
    minInterval ≤ waitStep minInterval (some t) now j e - t := by
  rw [waitStep]
  split <;> rename_i h <;> linarith

lemma checkRateLimitStep_spacing (minInterval t now e : ℚ) (he : 0 ≤ e) :
    minInterval ≤ checkRateLimitStep minInterval (some t) now e - t := by
  rw [checkRateLimitStep]
  split <;> rename_i h <;> linarith

lemma waitTrace_chain (minInterval : ℚ) (evs : List (ℚ × ℚ × ℚ))
    (h : ∀ x ∈ evs, 0 ≤ x.2.1 ∧ 0 ≤ x.2.2) (t : ℚ) :
    List.Chain (fun t1 t2 => minInterval ≤ t2 - t1) t
      (waitTrace minInterval (some t) evs) := by
  induction evs generalizing t with
  | nil => exact List.Chain.nil
  | cons x rest ih =>
    obtain ⟨now, j, e⟩ := x
    have hx := h (now, j, e) (List.mem_cons_self _ _)
    exact List.Chain.cons (waitStep_spacing minInterval t now j e hx.1 hx.2)
      (ih (fun y hy => h y (List.mem_cons_of_mem _ hy)) _)

lemma checkRateLimitTrace_chain (minInterval : ℚ) (evs : List (ℚ × ℚ))
    (h : ∀ x ∈ evs, 0 ≤ x.2) (t : ℚ) :
    List.Chain (fun t1 t2 => minInterval ≤ t2 - t1) t
      (checkRateLimitTrace minInterval (some t) evs) := by
  induction evs generalizing t with
  | nil => exact List.Chain.nil
  | cons x rest ih =>
    obtain ⟨now, e⟩ := x
    have hx := h (now, e) (List.mem_cons_self _ _)
    exact List.Chain.cons (checkRateLimitStep_spacing minInterval t now e hx)
      (ih (fun y hy => h y (List.mem_cons_of_mem _ hy)) _)

/-- C6, theorem: along any sequence of `wait_if_needed` calls for one
endpoint key (with non-negative jitter samples and clock advances), and
likewise any sequence of `_check_rate_limit` calls for one exchange id,
every two consecutive recorded call times `(t1, t2)` satisfy
`t2 - t1 ≥ min_interval`. -/
theorem rateLimiter_consecutive_spacing (minInterval : ℚ)
    (evs : List (ℚ × ℚ × ℚ)) (evs2 : List (ℚ × ℚ))
    (h : ∀ x ∈ evs, 0 ≤ x.2.1 ∧ 0 ≤ x.2.2) (h2 : ∀ x ∈ evs2, 0 ≤ x.2) :
    (waitTrace minInterval none evs).Chain'
        (fun t1 t2 => minInterval ≤ t2 - t1) ∧
      (checkRateLimitTrace minInterval none evs2).Chain'
        (fun t1 t2 => minInterval ≤ t2 - t1) := by
  constructor
  · cases evs with
    | nil => exact List.chain'_nil
    | cons x rest =>
      obtain ⟨now, j, e⟩ := x
      exact waitTrace_chain minInterval rest
        (fun y hy => h y (List.mem_cons_of_mem _ hy)) _
  · cases evs2 with
    | nil => exact List.chain'_nil
    | cons x rest =>
      obtain ⟨now, e⟩ := x
      exact checkRateLimitTrace_chain minInterval rest
        (fun y hy => h2 y (List.mem_cons_of_mem _ hy)) _

/-- C6, witness for `rateLimiter_consecutive_spacing`: two calls at times
`0` and `1` under a 2-second minimum interval. -/
theorem rateLimiter_consecutive_spacing_witness :
    (∀ x ∈ [((0 : ℚ), (0 : ℚ), (0 : ℚ)), (1, 0, 0)], 0 ≤ x.2.1 ∧ 0 ≤ x.2.2) ∧
      (∀ x ∈ [((0 : ℚ), (0 : ℚ)), (1, 0)], 0 ≤ x.2) ∧
      ((waitTrace 2 none [(0, 0, 0), (1, 0, 0)]).Chain'
          (fun t1 t2 => 2 ≤ t2 - t1) ∧
        (checkRateLimitTrace 2 none [(0, 0), (1, 0)]).Chain'
          (fun t1 t2 => 2 ≤ t2 - t1)) :=
  ⟨by norm_num, by norm_num,
    rateLimiter_consecutive_spacing 2 [(0, 0, 0), (1, 0, 0)] [(0, 0), (1, 0)]
      (by norm_num) (by norm_num)⟩

/-- Per-exchange health entry of `MultiExchangeMonitor.exchange_status`:
`isOk` embeds `status == 'ok'` (versus `'error'`), `lastError` the
`last_error` timestamp. -/
structure ExchState where
  isOk : Bool
  lastError : ℚ
deriving DecidableEq

/-- The availability test of `get_next_exchange`: status `'ok'`, or
status `'error'` with more than 300 seconds elapsed since `last_error`. -/
def isAvailable (now : ℚ) (s : ExchState) : Bool :=
  s.isOk || decide (300 < now - s.lastError)

/-- The reset loop of `get_next_exchange` taken when no exchange is
available: set every status back to `'ok'` (leaving `last_error` as it
was). -/
def resetAll (statuses : List (String × ExchState)) : List (String × ExchState) :=
  statuses.map fun x => (x.1, ⟨true, x.2.lastError⟩)

/-- `MultiExchangeMonitor.get_next_exchange`: filter the available
exchanges; if none remain, reset every status to `'ok'` and use the full
exchange list; rotate the index by one modulo the list length and return
the exchange there together with the updated state.  `none` embeds the
`ZeroDivisionError` raised when the final list is empty. -/
def getNextExchange (now : ℚ) (statuses : List (String × ExchState)) (idx : ℕ) :
    Option (String × List (String × ExchState) × ℕ) :=
  let avail := (statuses.filter fun x => isAvailable now x.2).map Prod.fst
  if avail.isEmpty then
    let statuses' := resetAll statuses
    let allIds := statuses.map Prod.fst
    let idx' := (idx + 1) % allIds.length
    (allIds.get? idx').map fun name => (name, statuses', idx')
  else
    let idx' := (idx + 1) % avail.length
    (avail.get? idx').map fun name => (name, statuses, idx')

/-- C10, theorem: when every configured exchange is in error state and
still inside the 5-minute cool-down window, `get_next_exchange` neither
fails nor waits: it resets every exchange's status to `'ok'` and returns
one of the configured exchange ids. -/
theorem getNextExchange_all_cooling (now : ℚ)
    (statuses : List (String × ExchState)) (idx : ℕ)
    (hne : statuses ≠ [])
    (hall : ∀ x ∈ statuses, x.2.isOk = false ∧ now - x.2.lastError ≤ 300) :
    ∃ name idx',
      getNextExchange now statuses idx = some (name, resetAll statuses, idx') ∧
        name ∈ statuses.map Prod.fst ∧
        ∀ x ∈ resetAll statuses, x.2.isOk = true := by
  have hfilter : (statuses.filter fun x => isAvailable now x.2) = [] := by
    apply List.filter_eq_nil_iff.mpr
    intro x hx
    have hx' := hall x hx
    simp [isAvailable, hx'.1]
    linarith [hx'.2]
  have hlen : 0 < (statuses.map Prod.fst).length := by
    simpa [List.length_pos] using hne
  have hidx : (idx + 1) % (statuses.map Prod.fst).length <
      (statuses.map Prod.fst).length := Nat.mod_lt _ hlen
  refine ⟨(statuses.map Prod.fst).get ⟨(idx + 1) % (statuses.map Prod.fst).length, hidx⟩,
    (idx + 1) % (statuses.map Prod.fst).length, ?_, List.get_mem _ _ _, ?_⟩
  · rw [getNextExchange]
    simp only [hfilter, List.map_nil, List.isEmpty_nil, if_true]
    rw [List.get?_eq_get hidx]
    rfl
  · intro x hx
    rw [resetAll] at hx
    obtain ⟨y, _, rfl⟩ := List.mem_map.mp hx
    rfl

/-- C10, witness for `getNextExchange_all_cooling`: a single exchange in
error state 100 seconds ago, queried now. -/
theorem getNextExchange_all_cooling_witness :
    ([(("binance" : String), (⟨false, 0⟩ : ExchState))] ≠ []) ∧
      (∀ x ∈ [(("binance" : String), (⟨false, 0⟩ : ExchState))],
        x.2.isOk = false ∧ (100 : ℚ) - x.2.lastError ≤ 300) ∧
      ∃ name idx',
        getNextExchange 100 [("binance", ⟨false, 0⟩)] 0 =
            some (name, resetAll [("binance", ⟨false, 0⟩)], idx') ∧
          name ∈ [("binance", (⟨false, 0⟩ : ExchState))].map Prod.fst ∧
          ∀ x ∈ resetAll [("binance", ⟨false, 0⟩)], x.2.isOk = true :=
  ⟨by simp, by norm_num,
    getNextExchange_all_cooling 100 [("binance", ⟨false, 0⟩)] 0 (by simp)
      (by norm_num)⟩

/-- Outcome of one attempt inside `OKXOptionMonitor._request`: a raised
exception (connection error / timeout), or an HTTP response with its
status code and the OKX payload's `code` field. -/
inductive HttpOutcome
  | exc : HttpOutcome
  | resp (statusCode : ℕ) (apiCode : String) : HttpOutcome
deriving DecidableEq

/-- The only early-return of the `_request` loop: HTTP 200 with payload
`code == '0'`. -/
def isSuccess : HttpOutcome → Bool
  | .resp 200 c => c == "0"
  | _ => false

/-- The `for attempt in range(max_retries)` loop of
`OKXOptionMonitor._request`, with the attempt outcomes given as a
function of the attempt index; returns the result together with the
number of attempts consumed.  Every non-success outcome — any HTTP
status other than a 200/'0' response, and any exception before the last
attempt — falls through to the next iteration; exhaustion (or the
re-raised last exception) yields `None`. -/
def okxRequestLoop (out : ℕ → HttpOutcome) : ℕ → ℕ → Option Unit × ℕ
  | 0, i => (none, i)
  | fuel + 1, i =>
      if isSuccess (out i) then (some (), i + 1)
      else okxRequestLoop out fuel (i + 1)

/-- `OKXOptionMonitor._request` retry behaviour end to end. -/
def okxRequest (maxRetries : ℕ) (out : ℕ → HttpOutcome) : Option Unit × ℕ :=
  okxRequestLoop out maxRetries 0

/-- The `status_forcelist` of the urllib3 `Retry` mounted in
`MarketMonitor._request`. -/
def marketForcelist : List ℕ := [500, 502, 503, 504]

/-- urllib3 `Retry(total, status_forcelist=[500,502,503,504])` on a
status sequence: a response whose status is in the forcelist is retried
while budget remains; any other response is handed back at once. -/
def marketRetryLoop (st : ℕ → ℕ) : ℕ → ℕ → ℕ × ℕ
  | 0, i => (st i, i + 1)
  | fuel + 1, i =>
      if st i ∈ marketForcelist then marketRetryLoop st fuel (i + 1)
      else (st i, i + 1)

/-- `MarketMonitor._request`: the mounted retry adapter resolves the
final response, then `raise_for_status` turns any non-200 status into a
caught exception and a `None` result. -/
def marketRequest (total : ℕ) (st : ℕ → ℕ) : Option Unit × ℕ :=
  let r := marketRetryLoop st total 0
  (if r.1 = 200 then some () else none, r.2)

lemma okxRequestLoop_first_success (out : ℕ → HttpOutcome) :
    ∀ (fuel start i : ℕ), i < fuel →
      (∀ j, j < i → isSuccess (out (start + j)) = false) →
      isSuccess (out (start + i)) = true →
      okxRequestLoop out fuel start = (some (), start + i + 1) := by
  intro fuel
  induction fuel with
  | zero => intro start i hi; omega
  | succ fuel ih =>
    intro start i hi hb hs
    cases i with
    | zero =>
      rw [Nat.add_zero] at hs
      simp [okxRequestLoop, hs]
    | succ k =>
      have h0 : isSuccess (out start) = false := by
        have := hb 0 (Nat.succ_pos k)
        simpa using this
      rw [okxRequestLoop, h0]
      simp only [Bool.false_eq_true, if_false]
      have hb' : ∀ j, j < k → isSuccess (out (start + 1 + j)) = false := by
        intro j hj
        have heq : start + 1 + j = start + (j + 1) := by omega
        rw [heq]
        exact hb (j + 1) (Nat.succ_lt_succ hj)
      have hs' : isSuccess (out (start + 1 + k)) = true := by
        have heq : start + 1 + k = start + (k + 1) := by omega
        rw [heq]; exact hs
      have := ih (start + 1) k (Nat.lt_of_succ_lt_succ hi) hb' hs'
      rw [this]
      congr 1
      omega

lemma okxRequestLoop_allFail (out : ℕ → HttpOutcome) :
    ∀ (fuel start : ℕ),
      (∀ j, j < fuel → isSuccess (out (start + j)) = false) →
      okxRequestLoop out fuel start = (none, start + fuel) := by
  intro fuel
  induction fuel with
  | zero => intro start _; rw [okxRequestLoop, Nat.add_zero]
  | succ fuel ih =>
    intro start hb
    have h0 : isSuccess (out start) = false := by
      have := hb 0 (Nat.succ_pos fuel)
      simpa using this
    rw [okxRequestLoop, h0]
    simp only [Bool.false_eq_true, if_false]
    have hb' : ∀ j, j < fuel → isSuccess (out (start + 1 + j)) = false := by
      intro j hj
      have heq : start + 1 + j = start + (j + 1) := by omega
      rw [heq]
      exact hb (j + 1) (Nat.succ_lt_succ hj)
    rw [ih (start + 1) hb']
    congr 1
    omega

/-- C5, theorem (amended): the `OKXOptionMonitor._request` loop does not
surface 4xx responses immediately — every non-success outcome, 4xx
client errors included, falls through to the next attempt, success at
attempt `i` is returned after exactly `i + 1` attempts whatever the
earlier failures were, and only exhausting the budget yields the `None`
failure; the `MarketMonitor._request` layer, by contrast, retries only
the statuses in `status_forcelist = [500, 502, 503, 504]`, so a 4xx
response there is handed back after a single attempt. -/
theorem requestLayer_retry_behaviour (maxRetries : ℕ) (out : ℕ → HttpOutcome)
    (st : ℕ → ℕ) :
    (∀ i, i < maxRetries → (∀ j, j < i → isSuccess (out j) = false) →
        isSuccess (out i) = true →
        okxRequest maxRetries out = (some (), i + 1)) ∧
      ((∀ j, j < maxRetries → isSuccess (out j) = false) →
        okxRequest maxRetries out = (none, maxRetries)) ∧
      (st 0 ∉ marketForcelist → st 0 ≠ 200 →
        marketRequest maxRetries st = (none, 1)) := by
  refine ⟨?_, ?_, ?_⟩
  · intro i hi hb hs
    have := okxRequestLoop_first_success out maxRetries 0 i hi
      (by simpa using hb) (by simpa using hs)
    simpa [okxRequest] using this
  · intro hb
    have := okxRequestLoop_allFail out maxRetries 0 (by simpa using hb)
    simpa [okxRequest] using this
  · intro hmem h200
    cases maxRetries with
    | zero =>
      simp [marketRequest, marketRetryLoop, h200]
    | succ n =>
      rw [marketRequest, marketRetryLoop]
      simp [hmem, h200]

/-- Attempt outcomes where attempt 0 gets HTTP 400 (a 4xx other than
429) and attempt 1 a full success. -/
def out400 : ℕ → HttpOutcome :=
  fun i => if i = 0 then .resp 400 "" else .resp 200 "0"

/-- Attempt outcomes where every attempt raises (e.g. a timeout). -/
def outExc : ℕ → HttpOutcome := fun _ => .exc

/-- Status sequence that always answers HTTP 400. -/
def st400 : ℕ → ℕ := fun _ => 400

/-- C5, witness for `requestLayer_retry_behaviour`: a 400 on attempt 0
followed by a success is returned after 2 attempts; all-timeouts under a
budget of 2 gives `None` after 2 attempts; a 400 under the urllib3 layer
is handed back after 1 attempt. -/
theorem requestLayer_retry_behaviour_witness :
    okxRequest 3 out400 = (some (), 2) ∧ okxRequest 2 outExc = (none, 2) ∧
      marketRequest 3 st400 = (none, 1) :=
  ⟨(requestLayer_retry_behaviour 3 out400 st400).1 1 (by omega)
      (fun j hj => by interval_cases j; decide) (by decide),
    (requestLayer_retry_behaviour 2 outExc st400).2.1 (fun j _ => rfl),
    (requestLayer_retry_behaviour 3 out400 st400).2.2 (by decide) (by decide)⟩

/-- C5, counterexample: with `MAX_RETRIES = 3` and attempt 0 answered by
HTTP 400 — a 4xx client error other than 429 — `_request` does not
surface the failure immediately: it goes on to attempt 1 (which
succeeds), consuming 2 attempts instead of stopping after 1. -/
theorem okxRequest_400_retried_counterexample :
    okxRequest 3 out400 = (some (), 2) ∧ (okxRequest 3 out400).2 ≠ 1 := by
  decide

/-- The 15-minute price change computed by
`MarketMonitor.update_market_data` (market_monitor.py) when both the
15-minute-ago and 30-minute-ago points exist: the change rate from 15
minutes ago to now, minus the change rate from 30 minutes ago to 15
minutes ago ("gradient of the change rate" per the source comment). -/
def priceChange15m (p h15 h30 : ℚ) : ℚ :=
  (p - h15) / h15 * 100 - (h15 - h30) / h30 * 100

/-- From the spec's words, for comparison: the point-to-point windowed
change rate `(latest.price - point_15m_ago.price) / point_15m_ago.price
* 100`. -/
def pointChangeRate (latest past : ℚ) : ℚ := (latest - past) / past * 100

/-- C4, theorem (amended): `price_change_15m` in
`MarketMonitor.update_market_data` is the difference of two successive
point-to-point change rates, so it agrees with the spec's point-to-point
formula exactly when the prior 15-minute segment was flat
(`h15 = h30`). -/
theorem priceChange15m_eq_point_iff (p h15 h30 : ℚ) (h : h30 ≠ 0) :
    priceChange15m p h15 h30 = pointChangeRate p h15 ↔ h15 = h30 := by
  rw [priceChange15m, pointChangeRate, sub_eq_self]
  constructor
  · intro hb
    rcases mul_eq_zero.mp hb with h1 | h1
    · rcases div_eq_zero_iff.mp h1 with h2 | h2
      · linarith [sub_eq_zero.mp h2]
      · exact absurd h2 h
    · norm_num at h1
  · intro he
    rw [he]
    simp

/-- C4, witness for `priceChange15m_eq_point_iff` at
`p = 110, h15 = 100, h30 = 50`. -/
theorem priceChange15m_eq_point_iff_witness :
    ((50 : ℚ) ≠ 0) ∧
      (priceChange15m 110 100 50 = pointChangeRate 110 100 ↔ (100 : ℚ) = 50) :=
  ⟨by norm_num, priceChange15m_eq_point_iff 110 100 50 (by norm_num)⟩

/-- C4, counterexample: with latest `110`, 15-minutes-ago `100` and
30-minutes-ago `50`, the code computes `10 - 100 = -90`, a difference of
two successive change rates, while the point-to-point percentage change
is `10`. -/
theorem priceChange15m_counterexample :
    priceChange15m 110 100 50 = -90 ∧ pointChangeRate 110 100 = 10 ∧
      ((-90 : ℚ) ≠ 10) := by
  refine ⟨?_, ?_, by norm_num⟩ <;> norm_num [priceChange15m, pointChangeRate]

/-- `OptionDatabase._calculate_change_rate`
(option_monitor/core/option_database.py): 0 for a falsy `previous`;
otherwise the percentage change of `current` against the smoothed base
`(previous + average)/2` (a zero base raises `ZeroDivisionError`, caught
and turned into 0), clamped into `[-1000, 1000]`. -/
def calcChangeRate (current previous average : ℚ) : ℚ :=
  if previous = 0 then 0
  else if (previous + average) / 2 = 0 then 0
  else
    max (min ((current - (previous + average) / 2) / ((previous + average) / 2) * 100)
      1000) (-1000)

/-- C9, theorem: every value `_calculate_change_rate` returns lies in
the clamp range `[-1000, 1000]`, and at `current = 100`,
`previous = average = 0.0001` — where the raw percentage change is
`99999900` — it returns exactly the bound `1000`. -/
theorem calcChangeRate_clamped :
    (∀ current previous average : ℚ,
        -1000 ≤ calcChangeRate current previous average ∧
          calcChangeRate current previous average ≤ 1000) ∧
      calcChangeRate 100 (1/10000) (1/10000) = 1000 := by
  constructor
  · intro current previous average
    rw [calcChangeRate]
    split_ifs with h1 h2
    · norm_num
    · norm_num
    · exact ⟨le_max_right _ _,
        max_le (le_trans (min_le_right _ _) le_rfl) (by norm_num)⟩
  · rw [calcChangeRate]
    norm_num

/-- One row of the option DataFrame as seen by the anomaly detectors:
the contract id and the metric value (`volume` or `iv`). -/
structure OptionRow where
  contractId : String
  value : ℚ
deriving DecidableEq

/-- An emitted anomaly dict of `_detect_volume_anomalies` /
`_detect_iv_anomalies`, with the fields the claims inspect. -/
structure AnomalyRec where
  contractId : String
  anomalyKind : String
  severity : String
  value : ℚ
deriving DecidableEq

/-- The square of the detector's z-score
`(value - mean) / std  if std > 0 else 0` — exact in ℚ, where the
z-score itself is irrational. -/
def zSq (x m v : ℚ) : ℚ := if 0 < v then (x - m) ^ 2 / v else 0

/-- The emission test `abs(z_score) > threshold`, in squared form:
`|z| > t ↔ t < 0 ∨ z² > t²`. -/
def isFlagged (x m v t : ℚ) : Bool :=
  decide (t < 0) || decide (t ^ 2 < zSq x m v)

/-- The severity choice
`'HIGH' if abs(z_score) > threshold * 1.5 else 'MEDIUM'`, in squared
form. -/
def severityOf (x m v t : ℚ) : String :=
  if 3 * t / 2 < 0 ∨ (3 * t / 2) ^ 2 < zSq x m v then "HIGH" else "MEDIUM"

/-- The per-row loop of the detectors, with the population mean and
variance precomputed (as in the source, which computes them once before
iterating). -/
def collectAnomalies (kind : String) (m v t : ℚ) : List OptionRow → List AnomalyRec
  | [] => []
  | r :: rest =>
      if isFlagged r.value m v t then
        ⟨r.contractId, kind, severityOf r.value m v t, r.value⟩ ::
          collectAnomalies kind m v t rest
      else collectAnomalies kind m v t rest

/-- Common shape of `_detect_volume_anomalies` and `_detect_iv_anomalies`
(option_analyzer.py): z-score each row's value against the population
mean and sample standard deviation, emit a record when
`|z| > threshold`. -/
def detectAnomalies (kind : String) (rows : List OptionRow) (t : ℚ) : List AnomalyRec :=
  collectAnomalies kind (listMean (rows.map OptionRow.value))
    (sampleVar (rows.map OptionRow.value)) t rows

/-- `OptionAnalyzer._detect_volume_anomalies`. -/
def detectVolumeAnomalies (rows : List OptionRow) (t : ℚ) : List AnomalyRec :=
  detectAnomalies "VOLUME_ANOMALY" rows t

/-- `OptionAnalyzer._detect_iv_anomalies`. -/
def detectIvAnomalies (rows : List OptionRow) (t : ℚ) : List AnomalyRec :=
  detectAnomalies "IV_ANOMALY" rows t

/-- The population `[10, 10, 10, 10, 1000]` of C7, one entity per row. -/
def pop7 : List OptionRow :=
  [⟨"c1", 10⟩, ⟨"c2", 10⟩, ⟨"c3", 10⟩, ⟨"c4", 10⟩, ⟨"c5", 1000⟩]

/-- C7, theorem (amended): for the population `[10, 10, 10, 10, 1000]`
with the default threshold `2.0`, the squared z-score of the entity with
value `1000` is `(1000 - 208)² / 196020 = 16/5 = 3.2 ≤ 4 = 2²` (pandas
sample standard deviation), so its `|z| ≈ 1.79` does not exceed the
threshold and the detector emits no anomaly record at all. -/
theorem volumeAnomaly_outlier_not_flagged :
    zSq 1000 208 196020 = 16/5 ∧ (16/5 : ℚ) ≤ 2 ^ 2 ∧
      detectVolumeAnomalies pop7 2 = [] := by
  have hm : listMean (pop7.map OptionRow.value) = 208 := by
    norm_num [pop7, listMean]
  have hv : sampleVar (pop7.map OptionRow.value) = 196020 := by
    norm_num [pop7, sampleVar, listMean]
  refine ⟨by norm_num [zSq], by norm_num, ?_⟩
  rw [detectVolumeAnomalies, detectAnomalies, hm, hv, pop7]
  norm_num [collectAnomalies, isFlagged, zSq]

/-- C7, counterexample: the detector flags nothing on
`[10, 10, 10, 10, 1000]` at threshold `2.0` — in particular it emits no
record for the entity with value `1000`. -/
theorem volumeAnomaly_outlier_counterexample :
    ¬ ∃ r ∈ detectVolumeAnomalies pop7 2, r.value = 1000 := by
  have hm : listMean (pop7.map OptionRow.value) = 208 := by
    norm_num [pop7, listMean]
  have hv : sampleVar (pop7.map OptionRow.value) = 196020 := by
    norm_num [pop7, sampleVar, listMean]
  have hnil : detectVolumeAnomalies pop7 2 = [] := by
    rw [detectVolumeAnomalies, detectAnomalies, hm, hv, pop7]
    norm_num [collectAnomalies, isFlagged, zSq]
  rw [hnil]
  simp

lemma listSum_const (l : List ℚ) (c : ℚ) (h : ∀ x ∈ l, x = c) :
    l.sum = c * l.length := by
  induction l with
  | nil => simp
  | cons a rest ih =>
    have ha : a = c := h a (List.mem_cons_self _ _)
    have hrest := ih fun x hx => h x (List.mem_cons_of_mem _ hx)
    simp [ha, hrest]
    ring

lemma sampleVar_const (l : List ℚ) (c : ℚ) (h : ∀ x ∈ l, x = c) :
    sampleVar l = 0 := by
  rw [sampleVar]
  split_ifs with hlen
  · rfl
  · have hne : l ≠ [] := by
      intro hcon
      rw [hcon] at hlen
      simp at hlen
    have hmean : listMean l = c := by
      rw [listMean, listSum_const l c h]
      have hl0 : l.length ≠ 0 := fun h0 => hne (List.length_eq_zero.mp h0)
      have : (l.length : ℚ) ≠ 0 := Nat.cast_ne_zero.mpr hl0
      field_simp
    have hz : ∀ y ∈ l.map fun x => (x - listMean l) ^ 2, y = 0 := by
      intro y hy
      obtain ⟨x, hx, rfl⟩ := List.mem_map.mp hy
      rw [hmean, h x hx]
      ring
    rw [listSum_const _ 0 hz]
    simp

lemma collectAnomalies_eq_nil (kind : String) (m v t : ℚ) (rows : List OptionRow)
    (h : ∀ r ∈ rows, isFlagged r.value m v t = false) :
    collectAnomalies kind m v t rows = [] := by
  induction rows with
  | nil => rfl
  | cons r rest ih =>
    rw [collectAnomalies, h r (List.mem_cons_self _ _)]
    simp only [Bool.false_eq_true, if_false]
    exact ih fun x hx => h x (List.mem_cons_of_mem _ hx)

/-- C8, theorem: on a constant population (zero standard deviation) the
detectors assign a zero z-score to every entity and, for any
non-negative threshold, emit no anomaly record — the computation is
total, the `σ > 0` guard replacing the division. -/
theorem anomalyDetector_constant_population (rows : List OptionRow) (c t : ℚ)
    (ht : 0 ≤ t) (hc : ∀ r ∈ rows, r.value = c) :
    (∀ r ∈ rows,
        zSq r.value (listMean (rows.map OptionRow.value))
          (sampleVar (rows.map OptionRow.value)) = 0) ∧
      detectVolumeAnomalies rows t = [] ∧ detectIvAnomalies rows t = [] := by
  have hvals : ∀ x ∈ rows.map OptionRow.value, x = c := by
    intro x hx
    obtain ⟨r, hr, rfl⟩ := List.mem_map.mp hx
    exact hc r hr
  have hv : sampleVar (rows.map OptionRow.value) = 0 :=
    sampleVar_const _ c hvals
  have hzero : ∀ x m : ℚ, zSq x m 0 = 0 := by
    intro x m
    rw [zSq]
    simp
  have hflag : ∀ x m : ℚ, isFlagged x m 0 t = false := by
    intro x m
    rw [isFlagged, hzero]
    simp only [Bool.or_eq_false_iff, decide_eq_false_iff_not, not_lt]
    exact ⟨ht, sq_nonneg t⟩
  refine ⟨fun r _ => by rw [hv, hzero], ?_, ?_⟩
  · rw [detectVolumeAnomalies, detectAnomalies, hv]
    exact collectAnomalies_eq_nil _ _ _ _ _ fun r _ => hflag r.value _
  · rw [detectIvAnomalies, detectAnomalies, hv]
    exact collectAnomalies_eq_nil _ _ _ _ _ fun r _ => hflag r.value _

/-- The constant population `[10, 10, 10, 10, 10]` of C8. -/
def popConst : List OptionRow :=
  [⟨"c1", 10⟩, ⟨"c2", 10⟩, ⟨"c3", 10⟩, ⟨"c4", 10⟩, ⟨"c5", 10⟩]

/-- C8, witness for `anomalyDetector_constant_population` on the
population `[10, 10, 10, 10, 10]` with threshold `2.0`. -/
theorem anomalyDetector_constant_population_witness :
    (∀ r ∈ popConst,
        zSq r.value (listMean (popConst.map OptionRow.value))
          (sampleVar (popConst.map OptionRow.value)) = 0) ∧
      detectVolumeAnomalies popConst 2 = [] ∧ detectIvAnomalies popConst 2 = [] :=
  anomalyDetector_constant_population popConst 10 2 (by norm_num)
    (by simp [popConst])
